import Mathlib

/-!
Shallow embedding of the Wave backend's core data model and operations
(`src/models.py`, `src/app.py`) for checking the specification's claims.

Modelling conventions:
* SQLAlchemy tables become Lean `structure`s; the database session becomes an
  explicit `DB` record of lists, one per table, threaded through each handler.
* Python floats (latitude/longitude, charges, hours) are modelled as `ℚ` where
  the code only stores, copies and compares them; the haversine computation
  (`math.sin` etc.) is modelled over `ℝ`.
* `Query.get` / `filter_by(...).first()` become `List.find?`; a first-match
  delete becomes `List.eraseP`; `filter_by(...).delete()` becomes `List.filter`
  with the negated predicate.
* A handler returning an error response without touching the session is
  modelled as `Except.error (httpStatus, message)`: the database is unchanged.
  A handler's successful commit is the `Except.ok` state.
* Auto-increment primary keys are modelled by counters in `DB` where a claim
  needs to identify freshly created rows.
* Columns never read by the modelled routes (timestamps, password hashes,
  image data, ...) are omitted.
-/

deriving instance DecidableEq for Except

namespace Wave

/-- `models.py` `User` (columns used by the modelled routes: id and the
nullable stored location). -/
structure User where
  id : Nat
  latitude : Option ℚ
  longitude : Option ℚ
deriving DecidableEq, Repr

/-- `models.py` `Task`. `status` ranges over "open", "accepted", "completed";
`helperId`, `charges`, `hours` are nullable, set on quote acceptance. -/
structure Task where
  id : Nat
  title : String
  description : String
  category : String
  reward : String
  status : String
  latitude : ℚ
  longitude : ℚ
  posterId : Nat
  helperId : Option Nat
  charges : Option ℚ
  hours : Option ℚ
deriving DecidableEq, Repr

/-- `models.py` `Quote`. `status` ranges over "pending", "accepted",
"declined" (default "pending"). -/
structure Quote where
  id : Nat
  taskId : Nat
  helperId : Nat
  charges : ℚ
  hours : ℚ
  mobile : String
  status : String
deriving DecidableEq, Repr

/-- `models.py` `Rating`. -/
structure Rating where
  id : Nat
  taskId : Nat
  raterId : Nat
  rateeId : Nat
  score : Int
  comment : String
deriving DecidableEq, Repr

/-- `models.py` `Notification` (`is_read` defaults to false). -/
structure Notification where
  userId : Nat
  message : String
  isRead : Bool
deriving DecidableEq, Repr

/-- The database: one list per table, plus auto-increment counters for the
tables whose fresh primary keys the claims need to track. -/
structure DB where
  users : List User
  tasks : List Task
  quotes : List Quote
  ratings : List Rating
  notifications : List Notification
  nextQuoteId : Nat
  nextRatingId : Nat
deriving DecidableEq, Repr

/-- Well-formedness maintained by SQLite for the slice we model: primary keys
are unique, the auto-increment counter is fresh, and each quote's `task_id`
foreign key resolves (`Quote.task_id` is `nullable=False`, so `quote.task` in
`accept_quote` is never `None`). -/
def DB.wf (db : DB) : Prop :=
  db.tasks.Pairwise (fun a b => a.id ≠ b.id) ∧
  db.quotes.Pairwise (fun a b => a.id ≠ b.id) ∧
  (∀ q ∈ db.quotes, q.id < db.nextQuoteId) ∧
  (∀ q ∈ db.quotes, ∃ t ∈ db.tasks, t.id = q.taskId)

instance (db : DB) : Decidable db.wf := by
  unfold DB.wf; infer_instance

/-- The at-most-one-quote-per-(task, helper) invariant of spec §3: for every
(task id, helper id) pair, at most one `Quote` row carries it. -/
def quotePairInv (db : DB) : Prop :=
  ∀ taskId helperId : Nat,
    (db.quotes.filter (fun q => q.taskId == taskId && q.helperId == helperId)).length ≤ 1

/-- `app.py` `create_notification` (lines 60-63): adds a `Notification` row to
the session. -/
def create_notification (userId : Nat) (message : String) (db : DB) : DB :=
  { db with notifications := db.notifications ++ [⟨userId, message, false⟩] }

/-- `app.py` `submit_quote` (lines 249-278). Inputs mirror
`data.get('charges')` etc.: absent JSON keys are `none`; Python's
`not mobile` is true for both `None` and `""`. A prior quote by the same
helper on the same task is deleted (first match) before the new pending quote
is inserted. -/
def submit_quote (currentUserId taskId : Nat) (charges hours : Option ℚ)
    (mobile : Option String) (db : DB) : Except (Nat × String) DB :=
  if charges.isNone || hours.isNone || mobile.getD "" == "" then
    .error (400, "Charges, hours, and mobile are required")
  else
    match db.tasks.find? (fun t => t.id == taskId && t.status == "open") with
    | none => .error (404, "Task not found or no longer open")
    | some _ =>
      let quotes' :=
        db.quotes.eraseP (fun q => q.taskId == taskId && q.helperId == currentUserId)
      let newQuote : Quote :=
        ⟨db.nextQuoteId, taskId, currentUserId, charges.getD 0, hours.getD 0,
          mobile.getD "", "pending"⟩
      .ok { db with quotes := quotes' ++ [newQuote],
                    nextQuoteId := db.nextQuoteId + 1 }

/-- The decline notification text of `app.py` line 321. -/
def declineMessage (taskTitle : String) : String :=
  "Your quotation for '" ++ taskTitle ++ "' was declined."

/-- The assignment notification text of `app.py` line 334. -/
def assignMessage (taskTitle : String) : String :=
  "Your work for '" ++ taskTitle ++ "' was assigned!"

/-- `app.py` `accept_quote` (lines 304-342), exposing its two commit points.
The handler looks the quote up by id, resolves `quote.task`, checks the actor
is the task's poster, then: declines every other quote of the task (creating a
decline notification for each), accepts the selected quote, copies
helper/charges/hours onto the task, sets the task's status to "accepted" and
commits (line 331) — the first component of the result. It then creates the
assignment notification for the accepted helper and commits again (line 336)
— the second component. There is no check on the task's current status. -/
def accept_quote_steps (currentUserId quoteId : Nat) (db : DB) :
    Except (Nat × String) (DB × DB) :=
  match db.quotes.find? (fun q => q.id == quoteId) with
  | none => .error (404, "Quote not found")
  | some quote =>
    match db.tasks.find? (fun t => t.id == quote.taskId) with
    | none => .error (500, "internal")  -- unreachable: task_id FK is non-null
    | some task =>
      if task.posterId != currentUserId then
        .error (403, "Only the task poster can accept quotes")
      else
        let otherQuotes := db.quotes.filter (fun q => q.taskId == task.id && q.id != quoteId)
        let declineNotifs : List Notification :=
          otherQuotes.map (fun q => ⟨q.helperId, declineMessage task.title, false⟩)
        let quotes' := db.quotes.map (fun q =>
          if q.id == quoteId then { q with status := "accepted" }
          else if q.taskId == task.id then { q with status := "declined" }
          else q)
        let task' := { task with helperId := some quote.helperId,
                                 charges := some quote.charges,
                                 hours := some quote.hours,
                                 status := "accepted" }
        let tasks' := db.tasks.map (fun t => if t.id == task.id then task' else t)
        let firstCommit := { db with quotes := quotes', tasks := tasks',
                                     notifications := db.notifications ++ declineNotifs }
        let secondCommit := create_notification quote.helperId (assignMessage task.title) firstCommit
        .ok (firstCommit, secondCommit)

/-- The state persisted by `accept_quote`'s first commit (`app.py` line 331). -/
def accept_quote_firstCommit (currentUserId quoteId : Nat) (db : DB) :
    Except (Nat × String) DB :=
  (accept_quote_steps currentUserId quoteId db).map Prod.fst

/-- `app.py` `accept_quote`: the state after both commits (line 336), i.e. the
handler's full successful effect. -/
def accept_quote (currentUserId quoteId : Nat) (db : DB) :
    Except (Nat × String) DB :=
  (accept_quote_steps currentUserId quoteId db).map Prod.snd

/-- The state `accept_quote`'s first commit (`app.py` line 331) persists, given
the quote `q` it accepts and the task `T` it updates: every other quote of `T`
declined with a notification each, `q` accepted, `T` assigned. -/
def acceptFirstCommitState (q : Quote) (T : Task) (quoteId : Nat) (db : DB) : DB :=
  { db with
    quotes := db.quotes.map (fun x =>
      if x.id == quoteId then { x with status := "accepted" }
      else if x.taskId == T.id then { x with status := "declined" }
      else x),
    tasks := db.tasks.map (fun t =>
      if t.id == T.id then
        { T with helperId := some q.helperId, charges := some q.charges,
                 hours := some q.hours, status := "accepted" }
      else t),
    notifications := db.notifications ++
      (db.quotes.filter (fun x => x.taskId == T.id && x.id != quoteId)).map
        (fun x => ⟨x.helperId, declineMessage T.title, false⟩) }

/-- `app.py` `complete_task` (lines 394-407): 404 when the task is missing,
403 when the actor is neither helper nor poster, otherwise sets the status to
"completed" (no check of the prior status) and commits. -/
def complete_task (currentUserId taskId : Nat) (db : DB) :
    Except (Nat × String) DB :=
  match db.tasks.find? (fun t => t.id == taskId) with
  | none => .error (404, "Task not found")
  | some task =>
    if !(some currentUserId == task.helperId || currentUserId == task.posterId) then
      .error (403, "You're not authorized to complete this task")
    else
      .ok { db with tasks := db.tasks.map (fun t =>
              if t.id == taskId then { t with status := "completed" } else t) }

/-- Python truthiness of an optional integer id (`all([task_id, ...])`):
`None` and `0` are falsy. -/
def truthyNat (x : Option Nat) : Bool :=
  match x with
  | none => false
  | some n => n != 0

/-- Python truthiness of an optional integer score. -/
def truthyInt (x : Option Int) : Bool :=
  match x with
  | none => false
  | some n => n != 0

/-- `app.py` `create_rating` (lines 411-455). The first guard is Python's
`not all([task_id, ratee_id, score])`, i.e. truthiness: a missing key *or a
zero value* trips it. Then, in order: score range, task exists and completed,
rater is a participant, ratee is the other participant, no duplicate rating;
the first failing check's error is returned and nothing is persisted. -/
def create_rating (currentUserId : Nat) (taskId? rateeId? : Option Nat)
    (score? : Option Int) (comment? : Option String) (db : DB) :
    Except (Nat × String) DB :=
  if !(truthyNat taskId? && truthyNat rateeId? && truthyInt score?) then
    .error (400, "task_id, ratee_id, and score are required")
  else
    let taskId := taskId?.getD 0
    let rateeId := rateeId?.getD 0
    let score := score?.getD 0
    let comment := comment?.getD ""
    if !(1 ≤ score && score ≤ 5) then
      .error (400, "Score must be between 1 and 5")
    else
      match db.tasks.find? (fun t => t.id == taskId) with
      | none => .error (400, "Task not found or not completed")
      | some task =>
        if task.status != "completed" then
          .error (400, "Task not found or not completed")
        else if !(currentUserId == task.posterId
                  || some currentUserId == task.helperId) then
          .error (403, "You were not part of this task")
        else if !((rateeId == task.posterId || some rateeId == task.helperId)
                  && rateeId != currentUserId) then
          .error (400, "You can only rate the other participant")
        else if (db.ratings.find? (fun r =>
                  r.taskId == taskId && r.raterId == currentUserId
                    && r.rateeId == rateeId)).isSome then
          .error (400, "You already rated this user for this task")
        else
          .ok { db with
                ratings := db.ratings ++
                  [⟨db.nextRatingId, taskId, currentUserId, rateeId, score, comment⟩],
                nextRatingId := db.nextRatingId + 1 }

/-- `app.py` `delete_task` (lines 460-480): 404 when no task with that id is
owned by the actor, 400 when its status is not "open"; otherwise it deletes the
task's quotes, its ratings and the task itself and commits once (line 475) —
a single transaction, rolled back wholesale on any exception (line 478). -/
def delete_task (currentUserId taskId : Nat) (db : DB) :
    Except (Nat × String) DB :=
  match db.tasks.find? (fun t => t.id == taskId && t.posterId == currentUserId) with
  | none => .error (404, "Task not found or you don't own it")
  | some task =>
    if task.status != "open" then
      .error (400, "Only open tasks can be deleted")
    else
      .ok { db with
            quotes := db.quotes.filter (fun q => q.taskId != taskId),
            ratings := db.ratings.filter (fun r => r.taskId != taskId),
            tasks := db.tasks.eraseP (fun t => t.id == taskId && t.posterId == currentUserId) }

section
open scoped Classical

/-- Degrees to radians, as `math.radians`. -/
noncomputable def radiansOf (x : ℝ) : ℝ := x * Real.pi / 180

/-- `math.atan2`, the two-argument arctangent, with the case split of the C
`atan2` it wraps (signed zeros and infinities aside, which exact reals do not
distinguish). -/
noncomputable def atan2 (y x : ℝ) : ℝ :=
  if 0 < x then Real.arctan (y / x)
  else if x < 0 ∧ 0 ≤ y then Real.arctan (y / x) + Real.pi
  else if x < 0 ∧ y < 0 then Real.arctan (y / x) - Real.pi
  else if x = 0 ∧ 0 < y then Real.pi / 2
  else if x = 0 ∧ y < 0 then -(Real.pi / 2)
  else 0

/-- `app.py` `haversine_distance` (lines 65-72), over the reals: Earth radius
6371.0 km, `a = sin²(Δlat/2) + cos lat1 · cos lat2 · sin²(Δlon/2)`,
`c = 2·atan2(√a, √(1−a))`, distance `R·c`. -/
noncomputable def haversine_distance (lat1 lon1 lat2 lon2 : ℝ) : ℝ :=
  let R : ℝ := 6371.0
  let lat1 := radiansOf lat1
  let lon1 := radiansOf lon1
  let lat2 := radiansOf lat2
  let lon2 := radiansOf lon2
  let dlat := lat2 - lat1
  let dlon := lon2 - lon1
  let a := Real.sin (dlat / 2) ^ 2
             + Real.cos lat1 * Real.cos lat2 * Real.sin (dlon / 2) ^ 2
  let c := 2 * atan2 (Real.sqrt a) (Real.sqrt (1 - a))
  R * c

/-- Python's `round(x, 2)`. (CPython rounds ties to even; the claims never
exercise a tie, so the rounding of `100·x` to the nearest integer is the
relevant content.) -/
noncomputable def round2 (x : ℝ) : ℝ := (round (100 * x) : ℤ) / 100

/-- One element of `get_map_tasks`' response (`app.py` lines 542-550). -/
structure MapEntry where
  id : Nat
  title : String
  category : String
  reward : String
  latitude : ℚ
  longitude : ℚ
  distance_km : ℝ

/-- The summary dict `get_map_tasks` appends for a task within range. -/
noncomputable def mapEntryOf (task : Task) (dist : ℝ) : MapEntry :=
  ⟨task.id, task.title, task.category, task.reward,
   task.latitude, task.longitude, round2 dist⟩

/-- The `for task in all_tasks` loop of `get_map_tasks` (lines 536-550):
keep each task whose haversine distance from the user is at most the radius,
recording the distance rounded to two decimals. -/
noncomputable def mapTaskScan (ulat ulon radius : ℝ) : List Task → List MapEntry
  | [] => []
  | task :: rest =>
    let dist := haversine_distance ulat ulon (task.latitude : ℝ) (task.longitude : ℝ)
    (if dist ≤ radius then [mapEntryOf task dist] else [])
      ++ mapTaskScan ulat ulon radius rest

/-- `app.py` `get_map_tasks` (lines 519-552): 400 when the user is missing or
has no stored latitude/longitude; 400 when the radius is outside [0.1, 50];
otherwise scan all open tasks and return those within the radius. -/
noncomputable def get_map_tasks (currentUserId : Nat) (radius : ℝ) (db : DB) :
    Except (Nat × String) (List MapEntry) :=
  match db.users.find? (fun u => u.id == currentUserId) with
  | none => .error (400, "Your location is not set")
  | some user =>
    match user.latitude, user.longitude with
    | some ulat, some ulon =>
      if radius < 0.1 ∨ radius > 50 then
        .error (400, "Radius must be between 0.1 and 50 km")
      else
        .ok (mapTaskScan (ulat : ℝ) (ulon : ℝ) radius
              (db.tasks.filter (fun t => t.status == "open")))
    | _, _ => .error (400, "Your location is not set")

end

/-! ### Generic list lemmas

Small facts about `find?`, `filter`, `eraseP` and rows with unique ids, used
to reason about the query combinators above. -/

/-- `find?` returns the unique element satisfying the predicate. -/
theorem find?_eq_some_of_unique {α} {l : List α} {p : α → Bool} {a : α}
    (ha : a ∈ l) (hpa : p a = true) (huniq : ∀ b ∈ l, p b = true → b = a) :
    l.find? p = some a := by
  induction l with
  | nil => cases ha
  | cons x xs ih =>
    by_cases hx : p x = true
    · have hxa : x = a := huniq x (List.mem_cons_self x xs) hx
      subst hxa
      simp [List.find?, hx]
    · have hxf : p x = false := Bool.eq_false_iff.mpr hx
      rcases List.mem_cons.mp ha with rfl | hmem
      · exact absurd hpa hx
      · simp only [List.find?, hxf]
        exact ih hmem (fun b hb hpb => huniq b (List.mem_cons_of_mem x hb) hpb)

/-- `find?` skips a prefix containing no match. -/
theorem find?_append_of_left_none {α} {l₁ l₂ : List α} {p : α → Bool}
    (h : ∀ a ∈ l₁, p a = false) : (l₁ ++ l₂).find? p = l₂.find? p := by
  induction l₁ with
  | nil => rfl
  | cons x xs ih =>
    simp only [List.cons_append, List.find?]
    rw [h x (List.mem_cons_self x xs)]
    exact ih (fun a ha => h a (List.mem_cons_of_mem x ha))

/-- Deleting the first match removes exactly the head of the matches. -/
theorem filter_eraseP_self {α} (l : List α) (p : α → Bool) :
    (l.eraseP p).filter p = (l.filter p).tail := by
  induction l with
  | nil => rfl
  | cons x xs ih =>
    by_cases hx : p x = true
    · simp [List.eraseP_cons, List.filter_cons, hx]
    · have hxf : p x = false := Bool.eq_false_iff.mpr hx
      simp [List.eraseP_cons, List.filter_cons, hxf, ih]

/-- In a duplicate-free list, filtering by a predicate satisfied by `a` alone
yields exactly `[a]`. -/
theorem filter_eq_singleton_of_unique {α} {l : List α} {p : α → Bool} {a : α}
    (hnd : l.Nodup) (ha : a ∈ l) (hpa : p a = true)
    (huniq : ∀ b ∈ l, p b = true → b = a) : l.filter p = [a] := by
  induction l with
  | nil => cases ha
  | cons x xs ih =>
    rcases List.mem_cons.mp ha with rfl | hmem
    · have hnone : ∀ b ∈ xs, ¬ p b = true := by
        intro b hb hpb
        have hba : b = a := huniq b (List.mem_cons_of_mem a hb) hpb
        subst hba
        exact (List.nodup_cons.mp hnd).1 hb
      simp [List.filter_cons, hpa, List.filter_eq_nil_iff.mpr hnone]
    · have hxf : p x = false := by
        cases hpx : p x with
        | false => rfl
        | true =>
          have hxa : x = a := huniq x (List.mem_cons_self x xs) hpx
          subst hxa
          exact absurd hmem (List.nodup_cons.mp hnd).1
      simp only [List.filter_cons, hxf, cond_false]
      exact ih (List.nodup_cons.mp hnd).2 hmem
        (fun b hb hpb => huniq b (List.mem_cons_of_mem x hb) hpb)

/-- Rows of a table with pairwise-distinct ids are equal once their ids are. -/
theorem eq_of_unique_ids {α} {l : List α} {f : α → Nat}
    (hl : l.Pairwise (fun a b => f a ≠ f b)) {a b : α}
    (ha : a ∈ l) (hb : b ∈ l) (h : f a = f b) : a = b := by
  induction l with
  | nil => cases ha
  | cons x xs ih =>
    have hx := List.pairwise_cons.mp hl
    rcases List.mem_cons.mp ha with rfl | ha' <;>
      rcases List.mem_cons.mp hb with rfl | hb'
    · rfl
    · exact absurd h (hx.1 b hb')
    · exact absurd h.symm (hx.1 a ha')
    · exact ih hx.2 ha' hb'

/-- Pairwise-distinct ids imply no duplicate rows. -/
theorem nodup_of_unique_ids {α} {l : List α} {f : α → Nat}
    (hl : l.Pairwise (fun a b => f a ≠ f b)) : l.Nodup :=
  hl.imp (fun hne => by intro hab; exact hne (by rw [hab]))

/-! ### Shared facts about `accept_quote` -/

/-- Success case of `accept_quote_steps`: when the quote is found, its task is
found and the actor is the task's poster, the handler reaches both commits and
the committed states are as described. Note the absent hypotheses: nothing
about the task's current status or about the statuses of the other quotes. -/
theorem accept_quote_steps_eq_ok {db : DB} {uid quoteId : Nat} {q : Quote} {T : Task}
    (hq : db.quotes.find? (fun x => x.id == quoteId) = some q)
    (ht : db.tasks.find? (fun t => t.id == q.taskId) = some T)
    (hposter : T.posterId = uid) :
    accept_quote_steps uid quoteId db =
      .ok (acceptFirstCommitState q T quoteId db,
           create_notification q.helperId (assignMessage T.title)
             (acceptFirstCommitState q T quoteId db)) := by
  subst hposter
  simp [accept_quote_steps, hq, ht, acceptFirstCommitState]

/-- Success case of the full `accept_quote` handler. -/
theorem accept_quote_eq_ok {db : DB} {uid quoteId : Nat} {q : Quote} {T : Task}
    (hq : db.quotes.find? (fun x => x.id == quoteId) = some q)
    (ht : db.tasks.find? (fun t => t.id == q.taskId) = some T)
    (hposter : T.posterId = uid) :
    accept_quote uid quoteId db =
      .ok (create_notification q.helperId (assignMessage T.title)
             (acceptFirstCommitState q T quoteId db)) := by
  rw [accept_quote, accept_quote_steps_eq_ok hq ht hposter]
  rfl

/-- After the accept transition, filtering this task's quotes for status
"accepted" yields exactly the selected quote. -/
theorem quotes_after_accept_filter {db : DB} {q : Quote} {T : Task} {quoteId : Nat}
    (huniq : db.quotes.Pairwise (fun a b => a.id ≠ b.id))
    (hqmem : q ∈ db.quotes) (hqid : q.id = quoteId) (hTid : T.id = q.taskId) :
    (acceptFirstCommitState q T quoteId db).quotes.filter
        (fun x => x.taskId == T.id && x.status == "accepted")
      = [{ q with status := "accepted" }] := by
  have hquotes : (acceptFirstCommitState q T quoteId db).quotes
      = db.quotes.map (fun x =>
          if x.id == quoteId then { x with status := "accepted" }
          else if x.taskId == T.id then { x with status := "declined" }
          else x) := rfl
  rw [hquotes, List.filter_map]
  have hfilter : db.quotes.filter
      ((fun x => x.taskId == T.id && x.status == "accepted") ∘
        (fun x => if x.id == quoteId then { x with status := "accepted" }
          else if x.taskId == T.id then { x with status := "declined" }
          else x)) = [q] := by
    apply filter_eq_singleton_of_unique (nodup_of_unique_ids huniq) hqmem
    · simp [Function.comp, hqid, ← hTid]
    · intro b hb hpb
      by_cases hbid : b.id = quoteId
      · exact eq_of_unique_ids huniq hb hqmem (by rw [hbid, hqid])
      · simp only [Function.comp, beq_iff_eq] at hpb
        rw [if_neg (by simpa using hbid)] at hpb
        by_cases hbt : b.taskId = T.id
        · rw [if_pos (by simpa using hbt)] at hpb
          simp at hpb
        · rw [if_neg (by simpa using hbt)] at hpb
          simp [hbt] at hpb
  rw [hfilter]
  simp [hqid]

/-- After the accept transition, every quote of the task other than the
selected one has status "declined". -/
theorem quotes_after_accept_declined {db : DB} {q : Quote} {T : Task} {quoteId : Nat} :
    ∀ x ∈ (acceptFirstCommitState q T quoteId db).quotes,
      x.taskId = T.id → x.id ≠ quoteId → x.status = "declined" := by
  intro x hx htask hid
  have hquotes : (acceptFirstCommitState q T quoteId db).quotes
      = db.quotes.map (fun y =>
          if y.id == quoteId then { y with status := "accepted" }
          else if y.taskId == T.id then { y with status := "declined" }
          else y) := rfl
  rw [hquotes] at hx
  obtain ⟨y, hymem, hyx⟩ := List.mem_map.mp hx
  by_cases hyid : y.id = quoteId
  · rw [if_pos (by simpa using hyid)] at hyx
    subst hyx
    exact absurd hyid hid
  · rw [if_neg (by simpa using hyid)] at hyx
    by_cases hyt : y.taskId = T.id
    · rw [if_pos (by simpa using hyt)] at hyx
      subst hyx
      rfl
    · rw [if_neg (by simpa using hyt)] at hyx
      subst hyx
      exact absurd htask hyt

/-- After the accept transition, looking the task up by id yields it with the
helper, charges and hours copied from the quote and status "accepted". -/
theorem find_tasks_after_accept {db : DB} {q : Quote} {T : Task} {quoteId : Nat}
    (hTmem : T ∈ db.tasks) :
    (acceptFirstCommitState q T quoteId db).tasks.find? (fun t => t.id == T.id)
      = some { T with helperId := some q.helperId, charges := some q.charges,
                      hours := some q.hours, status := "accepted" } := by
  have htasks : (acceptFirstCommitState q T quoteId db).tasks
      = db.tasks.map (fun t =>
          if t.id == T.id then
            { T with helperId := some q.helperId, charges := some q.charges,
                     hours := some q.hours, status := "accepted" }
          else t) := rfl
  rw [htasks]
  apply find?_eq_some_of_unique
  · exact List.mem_map.mpr ⟨T, hTmem, by simp⟩
  · simp
  · intro b hb hpb
    obtain ⟨t, htmem, htb⟩ := List.mem_map.mp hb
    by_cases hts : t.id = T.id
    · rw [if_pos (by simpa using hts)] at htb
      exact htb.symm
    · rw [if_neg (by simpa using hts)] at htb
      subst htb
      exact absurd (by simpa using hpb) hts

/-- The notifications created by a successful `accept_quote`: one per declined
quote, in table order, then one for the accepted helper. -/
theorem notifications_after_accept (db : DB) (q : Quote) (T : Task) (quoteId : Nat) :
    (create_notification q.helperId (assignMessage T.title)
        (acceptFirstCommitState q T quoteId db)).notifications
      = db.notifications
        ++ (db.quotes.filter (fun x => x.taskId == T.id && x.id != quoteId)).map
             (fun x => ⟨x.helperId, declineMessage T.title, false⟩)
        ++ [⟨q.helperId, assignMessage T.title, false⟩] := by
  simp [create_notification, acceptFirstCommitState, List.append_assoc]

/-- Filtering a mapped list under a predicate the map does not disturb keeps
the match count. -/
theorem filter_length_map_eq {α β} (f : α → β) (p : β → Bool) (q : α → Bool)
    (l : List α) (h : ∀ x, p (f x) = q x) :
    ((l.map f).filter p).length = (l.filter q).length := by
  induction l with
  | nil => rfl
  | cons x xs ih =>
    simp only [List.map_cons, List.filter_cons, h]
    cases q x <;> simp [ih]

/-- Inverting a successful `submit_quote`: the mobile string was non-empty,
an open task with the id was found, and the committed state replaces the
helper's previous quote on the task (if any) by a fresh pending quote holding
exactly the submitted values; no other table changes. -/
theorem submit_quote_ok_inv {uid taskId : Nat} {c h : ℚ} {m : String} {db s : DB}
    (hok : submit_quote uid taskId (some c) (some h) (some m) db = .ok s) :
    m ≠ "" ∧
    s.quotes = db.quotes.eraseP (fun q => q.taskId == taskId && q.helperId == uid)
        ++ [⟨db.nextQuoteId, taskId, uid, c, h, m, "pending"⟩] ∧
    s.users = db.users ∧ s.tasks = db.tasks ∧ s.ratings = db.ratings ∧
    s.notifications = db.notifications ∧
    s.nextQuoteId = db.nextQuoteId + 1 ∧ s.nextRatingId = db.nextRatingId := by
  rw [submit_quote] at hok
  by_cases hm : m = ""
  · rw [if_pos (by simp [hm])] at hok
    cases hok
  · rw [if_neg (by simp [hm])] at hok
    rcases hfind : db.tasks.find? (fun t => t.id == taskId && t.status == "open") with
      _ | T
    · rw [hfind] at hok; cases hok
    · rw [hfind] at hok
      simp only [] at hok
      cases hok
      exact ⟨hm, rfl, rfl, rfl, rfl, rfl, rfl, rfl⟩

/-- Inverting a successful `accept_quote`: the quote and its task were found,
and the committed quote table is the status rewrite of the old one (selected
quote accepted, other quotes of the task declined, the rest untouched). -/
theorem accept_quote_ok_quotes {uid quoteId : Nat} {db s : DB}
    (hok : accept_quote uid quoteId db = .ok s) :
    ∃ quote task,
      db.quotes.find? (fun x => x.id == quoteId) = some quote ∧
      db.tasks.find? (fun t => t.id == quote.taskId) = some task ∧
      s.quotes = db.quotes.map (fun x =>
        if x.id == quoteId then { x with status := "accepted" }
        else if x.taskId == task.id then { x with status := "declined" }
        else x) := by
  rw [accept_quote, accept_quote_steps] at hok
  rcases hfq : db.quotes.find? (fun x => x.id == quoteId) with _ | quote
  · rw [hfq] at hok; cases hok
  · rw [hfq] at hok
    simp only [] at hok
    rcases hft : db.tasks.find? (fun t => t.id == quote.taskId) with _ | task
    · rw [hft] at hok; cases hok
    · rw [hft] at hok
      simp only [] at hok
      by_cases hp : task.posterId = uid
      · rw [if_neg (by simp [hp])] at hok
        simp only [Except.map] at hok
        cases hok
        exact ⟨quote, task, hfq, hft, rfl⟩
      · rw [if_pos (by simpa using hp)] at hok
        cases hok

/-- Inverting a successful `complete_task`: only the task's status cell
changes. -/
theorem complete_task_ok_inv {uid taskId : Nat} {db s : DB}
    (hok : complete_task uid taskId db = .ok s) :
    s = { db with tasks := db.tasks.map (fun t =>
            if t.id == taskId then { t with status := "completed" } else t) } := by
  rw [complete_task] at hok
  rcases hft : db.tasks.find? (fun t => t.id == taskId) with _ | task
  · rw [hft] at hok; cases hok
  · rw [hft] at hok
    simp only [] at hok
    by_cases hmem : (some uid == task.helperId || uid == task.posterId) = true
    · rw [if_neg (by simp [hmem])] at hok
      cases hok
      rfl
    · rw [if_pos (by simpa using hmem)] at hok
      cases hok

/-- Inverting a successful `delete_task`: the three cascade deletions. -/
theorem delete_task_ok_inv {uid taskId : Nat} {db s : DB}
    (hok : delete_task uid taskId db = .ok s) :
    s = { db with
          quotes := db.quotes.filter (fun q => q.taskId != taskId),
          ratings := db.ratings.filter (fun r => r.taskId != taskId),
          tasks := db.tasks.eraseP (fun t => t.id == taskId && t.posterId == uid) } := by
  rw [delete_task] at hok
  rcases hft : db.tasks.find? (fun t => t.id == taskId && t.posterId == uid) with _ | task
  · rw [hft] at hok; cases hok
  · rw [hft] at hok
    simp only [] at hok
    by_cases hst : task.status = "open"
    · rw [if_neg (by simp [hst])] at hok
      cases hok
      rfl
    · rw [if_pos (by simp [hst])] at hok
      cases hok

/-- Inverting a successful `create_rating`: every validation passed and the
committed state appends exactly one new `Rating` row, all else unchanged. -/
theorem create_rating_ok_inv {uid : Nat} {taskId? rateeId? : Option Nat}
    {score? : Option Int} {comment? : Option String} {db s : DB}
    (hok : create_rating uid taskId? rateeId? score? comment? db = .ok s) :
    ∃ T, (truthyNat taskId? && truthyNat rateeId? && truthyInt score?) = true ∧
      (1 ≤ score?.getD 0 ∧ score?.getD 0 ≤ 5) ∧
      db.tasks.find? (fun t => t.id == taskId?.getD 0) = some T ∧
      T.status = "completed" ∧
      (uid = T.posterId ∨ some uid = T.helperId) ∧
      ((rateeId?.getD 0 = T.posterId ∨ some (rateeId?.getD 0) = T.helperId) ∧
        rateeId?.getD 0 ≠ uid) ∧
      db.ratings.find? (fun r => r.taskId == taskId?.getD 0 && r.raterId == uid
        && r.rateeId == rateeId?.getD 0) = none ∧
      s = { db with
            ratings := db.ratings ++
              [⟨db.nextRatingId, taskId?.getD 0, uid, rateeId?.getD 0,
                score?.getD 0, comment?.getD ""⟩],
            nextRatingId := db.nextRatingId + 1 } := by
  rw [create_rating] at hok
  by_cases h1 : (truthyNat taskId? && truthyNat rateeId? && truthyInt score?) = true
  · rw [if_neg (by simp [h1])] at hok
    by_cases h2 : 1 ≤ score?.getD 0 ∧ score?.getD 0 ≤ 5
    · rw [if_neg (by simp [h2.1, h2.2])] at hok
      rcases hft : db.tasks.find? (fun t => t.id == taskId?.getD 0) with _ | T
      · rw [hft] at hok; cases hok
      · rw [hft] at hok
        simp only [] at hok
        by_cases h3 : T.status = "completed"
        · rw [if_neg (by simp [h3])] at hok
          by_cases h4 : (uid == T.posterId || some uid == T.helperId) = true
          · rw [if_neg (by simp [h4])] at hok
            by_cases h5 : ((rateeId?.getD 0 == T.posterId
                || some (rateeId?.getD 0) == T.helperId)
                && rateeId?.getD 0 != uid) = true
            · rw [if_neg (by simp [h5])] at hok
              rcases hfr : db.ratings.find? (fun r => r.taskId == taskId?.getD 0
                  && r.raterId == uid && r.rateeId == rateeId?.getD 0) with _ | r
              · rw [hfr] at hok
                rw [if_neg (by simp)] at hok
                cases hok
                refine ⟨T, h1, h2, hft, h3, ?_, ?_, hfr, rfl⟩
                · simpa using h4
                · simpa using h5
              · rw [hfr] at hok
                rw [if_pos (by simp)] at hok
                cases hok
            · rw [if_pos (by simp [Bool.eq_false_iff.mpr h5])] at hok
              cases hok
          · rw [if_pos (by simpa using h4)] at hok
            cases hok
        · rw [if_pos (by simp [h3])] at hok
          cases hok
    · rw [if_pos (by
        simp only [Bool.not_eq_eq_eq_not, Bool.not_true, Bool.and_eq_false_iff,
          decide_eq_false_iff_not]
        omega)] at hok
      cases hok
  · rw [if_pos (by simp [h1])] at hok
    cases hok

/-! ### The claims -/

/-- Claim C1: after a successful `accept_quote` on quote `q` of task `T` by
the task's poster, exactly one quote of `T` has status "accepted" — namely `q`
— every other pre-existing quote of `T` has status "declined", `T`'s status is
"accepted" with helper/charges/hours copied from `q`, and the notification
table grew by exactly one decline notification per other quote of `T` (in
table order) plus one assignment notification for `q`'s helper. No hypothesis
on the quotes' prior statuses is needed; the claim's scenario (all pending) is
a special case. -/
theorem accept_quote_resolves_negotiation
    (db : DB) (uid quoteId : Nat) (q : Quote) (T : Task)
    (hwf : db.wf) (hqmem : q ∈ db.quotes) (hqid : q.id = quoteId)
    (hTmem : T ∈ db.tasks) (hTid : T.id = q.taskId) (hposter : T.posterId = uid) :
    ∃ s, accept_quote uid quoteId db = .ok s ∧
      s.quotes.filter (fun x => x.taskId == T.id && x.status == "accepted")
        = [{ q with status := "accepted" }] ∧
      (∀ x ∈ s.quotes, x.taskId = T.id → x.id ≠ quoteId → x.status = "declined") ∧
      s.tasks.find? (fun t => t.id == T.id)
        = some { T with helperId := some q.helperId, charges := some q.charges,
                        hours := some q.hours, status := "accepted" } ∧
      s.notifications = db.notifications
        ++ (db.quotes.filter (fun x => x.taskId == T.id && x.id != quoteId)).map
             (fun x => ⟨x.helperId, declineMessage T.title, false⟩)
        ++ [⟨q.helperId, assignMessage T.title, false⟩] := by
  obtain ⟨htasks_u, hquotes_u, -, -⟩ := hwf
  have hqfind : db.quotes.find? (fun x => x.id == quoteId) = some q :=
    find?_eq_some_of_unique hqmem (by simp [hqid])
      (fun b hb hpb => by
        have hb' : b.id = quoteId := by simpa using hpb
        exact eq_of_unique_ids hquotes_u hb hqmem (by rw [hb', hqid]))
  have hTfind : db.tasks.find? (fun t => t.id == q.taskId) = some T :=
    find?_eq_some_of_unique hTmem (by simp [hTid])
      (fun b hb hpb => by
        have hb' : b.id = q.taskId := by simpa using hpb
        exact eq_of_unique_ids htasks_u hb hTmem (by rw [hb', hTid]))
  exact ⟨_, accept_quote_eq_ok hqfind hTfind hposter,
    quotes_after_accept_filter hquotes_u hqmem hqid hTid,
    fun x hx => @quotes_after_accept_declined db q T quoteId x hx,
    @find_tasks_after_accept db q T quoteId hTmem,
    notifications_after_accept db q T quoteId⟩

/-- Witness for C1: poster 1 accepts quote 1 (helper 2) on task 1, which also
carries quote 2 by helper 3; both quotes pending beforehand. -/
theorem accept_quote_resolves_negotiation_witness :
    ∃ s, accept_quote 1 1
        ⟨[], [⟨1, "Fix sink", "d", "home", "", "open", 0, 0, 1, none, none, none⟩],
         [⟨1, 1, 2, 50, 2, "555", "pending"⟩, ⟨2, 1, 3, 60, 3, "666", "pending"⟩],
         [], [], 3, 1⟩ = .ok s ∧
      s.quotes.filter (fun x => x.taskId == 1 && x.status == "accepted")
        = [⟨1, 1, 2, 50, 2, "555", "accepted"⟩] ∧
      (∀ x ∈ s.quotes, x.taskId = 1 → x.id ≠ 1 → x.status = "declined") ∧
      s.tasks.find? (fun t => t.id == 1)
        = some ⟨1, "Fix sink", "d", "home", "", "accepted", 0, 0, 1, some 2,
                some 50, some 2⟩ ∧
      s.notifications = [] ++
        ([⟨1, 1, 2, 50, 2, "555", "pending"⟩,
          ⟨2, 1, 3, 60, 3, "666", "pending"⟩].filter
            (fun x : Quote => x.taskId == 1 && x.id != 1)).map
          (fun x => ⟨x.helperId, declineMessage "Fix sink", false⟩)
        ++ [⟨2, assignMessage "Fix sink", false⟩] :=
  accept_quote_resolves_negotiation
    ⟨[], [⟨1, "Fix sink", "d", "home", "", "open", 0, 0, 1, none, none, none⟩],
     [⟨1, 1, 2, 50, 2, "555", "pending"⟩, ⟨2, 1, 3, 60, 3, "666", "pending"⟩],
     [], [], 3, 1⟩ 1 1
    ⟨1, 1, 2, 50, 2, "555", "pending"⟩
    ⟨1, "Fix sink", "d", "home", "", "open", 0, 0, 1, none, none, none⟩
    (by decide) (by decide) rfl (by decide) rfl rfl

/-- Claim C4: submitting a quote twice as the same helper on the same open
task leaves exactly one quote row for the (task, helper) pair, carrying the
second submission's charges, hours and mobile with status "pending"; and the
at-most-one-quote-per-(task, helper) invariant (`quotePairInv`) is preserved
by every modelled mutating operation (`submit_quote`, `accept_quote`,
`complete_task`, `create_rating`, `delete_task`). -/
theorem quote_pair_uniqueness :
    (∀ (db : DB) (uid tid : Nat) (c1 h1 c2 h2 : ℚ) (m1 m2 : String) (s1 s2 : DB),
       (db.quotes.filter (fun q => q.taskId == tid && q.helperId == uid)).length ≤ 1 →
       submit_quote uid tid (some c1) (some h1) (some m1) db = .ok s1 →
       submit_quote uid tid (some c2) (some h2) (some m2) s1 = .ok s2 →
       s2.quotes.filter (fun q => q.taskId == tid && q.helperId == uid)
         = [⟨s1.nextQuoteId, tid, uid, c2, h2, m2, "pending"⟩]) ∧
    (∀ db uid tid charges hours mobile s, quotePairInv db →
       submit_quote uid tid charges hours mobile db = .ok s → quotePairInv s) ∧
    (∀ db uid quoteId s, quotePairInv db →
       accept_quote uid quoteId db = .ok s → quotePairInv s) ∧
    (∀ db uid taskId s, quotePairInv db →
       complete_task uid taskId db = .ok s → quotePairInv s) ∧
    (∀ db uid taskId? rateeId? score? comment? s, quotePairInv db →
       create_rating uid taskId? rateeId? score? comment? db = .ok s → quotePairInv s) ∧
    (∀ db uid taskId s, quotePairInv db →
       delete_task uid taskId db = .ok s → quotePairInv s) := by
  refine ⟨?_, ?_, ?_, ?_, ?_, ?_⟩
  · intro db uid tid c1 h1 c2 h2 m1 m2 s1 s2 hcount hok1 hok2
    obtain ⟨-, hq1, -⟩ := submit_quote_ok_inv hok1
    obtain ⟨-, hq2, -⟩ := submit_quote_ok_inv hok2
    have htail : (db.quotes.filter
        (fun q => q.taskId == tid && q.helperId == uid)).tail = [] := by
      rcases hX : db.quotes.filter (fun q => q.taskId == tid && q.helperId == uid) with
        _ | ⟨a, _ | ⟨b, l⟩⟩
      · rw [hX]; rfl
      · rw [hX]; rfl
      · rw [hX] at hcount; simp at hcount
    rw [hq2, List.filter_append, filter_eraseP_self, hq1, List.filter_append,
      filter_eraseP_self, htail]
    simp
  · intro db uid tid charges hours mobile s hInv hok
    rcases charges with _ | c
    · rw [submit_quote, if_pos (by simp)] at hok; cases hok
    rcases hours with _ | h
    · rw [submit_quote, if_pos (by simp)] at hok; cases hok
    rcases mobile with _ | m
    · rw [submit_quote, if_pos (by simp)] at hok; cases hok
    obtain ⟨-, hq, -⟩ := submit_quote_ok_inv hok
    intro t' u'
    rw [hq, List.filter_append]
    by_cases hsame : t' = tid ∧ u' = uid
    · obtain ⟨rfl, rfl⟩ := hsame
      rw [filter_eraseP_self]
      have hnew : [(⟨db.nextQuoteId, t', u', c, h, m, "pending"⟩ : Quote)].filter
          (fun q => q.taskId == t' && q.helperId == u') =
          [⟨db.nextQuoteId, t', u', c, h, m, "pending"⟩] := by simp
      rw [hnew]
      have hc := hInv t' u'
      simp only [List.length_append, List.length_tail, List.length_singleton]
      omega
    · have hcond : ((tid == t') && (uid == u')) = false := by
        cases hb : ((tid == t') && (uid == u')) with
        | false => rfl
        | true =>
          simp only [Bool.and_eq_true, beq_iff_eq] at hb
          exact absurd ⟨hb.1.symm, hb.2.symm⟩ hsame
      have hnew : [(⟨db.nextQuoteId, tid, uid, c, h, m, "pending"⟩ : Quote)].filter
          (fun q => q.taskId == t' && q.helperId == u') = [] := by
        simp only [List.filter, hcond]
      rw [hnew, List.append_nil]
      calc ((db.quotes.eraseP
              (fun q => q.taskId == tid && q.helperId == uid)).filter
              (fun q => q.taskId == t' && q.helperId == u')).length
        ≤ (db.quotes.filter (fun q => q.taskId == t' && q.helperId == u')).length :=
          ((List.eraseP_sublist db.quotes).filter _).length_le
        _ ≤ 1 := hInv t' u'
  · intro db uid quoteId s hInv hok
    obtain ⟨quote, task, -, -, hmap⟩ := accept_quote_ok_quotes hok
    intro t' u'
    rw [hmap, filter_length_map_eq _ _ (fun q => q.taskId == t' && q.helperId == u')
      db.quotes (by
        intro x
        by_cases h1 : x.id == quoteId
        · simp [h1]
        · by_cases h2 : x.taskId == task.id <;>
            simp [h1, h2])]
    exact hInv t' u'
  · intro db uid taskId s hInv hok
    rw [complete_task_ok_inv hok]
    exact hInv
  · intro db uid taskId? rateeId? score? comment? s hInv hok
    obtain ⟨T, -, -, -, -, -, -, -, hs⟩ := create_rating_ok_inv hok
    rw [hs]
    exact hInv
  · intro db uid taskId s hInv hok
    rw [delete_task_ok_inv hok]
    intro t' u'
    calc ((db.quotes.filter (fun q => q.taskId != taskId)).filter
            (fun q => q.taskId == t' && q.helperId == u')).length
      ≤ (db.quotes.filter (fun q => q.taskId == t' && q.helperId == u')).length :=
        ((List.filter_sublist db.quotes).filter _).length_le
      _ ≤ 1 := hInv t' u'

/-- Witness for C4: helper 2 quotes task 1 twice (values 5/2/"a" then
7/3/"b"); one row survives with the second values, and the invariant holds
throughout. -/
theorem quote_pair_uniqueness_witness :
    ((⟨[], [⟨1, "t", "d", "c", "", "open", 0, 0, 1, none, none, none⟩],
       [], [], [], 0, 0⟩ : DB).quotes.filter
        (fun q => q.taskId == 1 && q.helperId == 2)).length ≤ 1 ∧
    (⟨[], [⟨1, "t", "d", "c", "", "open", 0, 0, 1, none, none, none⟩],
      [⟨1, 1, 2, 7, 3, "b", "pending"⟩], [], [], 2, 0⟩ : DB).quotes.filter
        (fun q => q.taskId == 1 && q.helperId == 2)
      = [⟨1, 1, 2, 7, 3, "b", "pending"⟩] :=
  ⟨by decide,
   quote_pair_uniqueness.1
    ⟨[], [⟨1, "t", "d", "c", "", "open", 0, 0, 1, none, none, none⟩],
     [], [], [], 0, 0⟩ 2 1 5 2 7 3 "a" "b"
    ⟨[], [⟨1, "t", "d", "c", "", "open", 0, 0, 1, none, none, none⟩],
     [⟨0, 1, 2, 5, 2, "a", "pending"⟩], [], [], 1, 0⟩
    ⟨[], [⟨1, "t", "d", "c", "", "open", 0, 0, 1, none, none, none⟩],
     [⟨1, 1, 2, 7, 3, "b", "pending"⟩], [], [], 2, 0⟩
    (by decide) (by decide) (by decide)⟩

/-- Claim C3 counterexample: `accept_quote` never checks the task's status, so
after poster 1 accepts quote 1 (helper 2, task assigned to helper 2), a second
`accept_quote` on the still-present quote 2 succeeds: quote 2 — a second quote
of the same task — becomes "accepted" and the task's helper is reassigned
from 2 to 3, refuting "no subsequent operation can ever put a second quote of
that task into the accepted state or reassign the task's helper". -/
theorem accept_quote_reaccept_counterexample :
    (accept_quote 1 1
        ⟨[], [⟨1, "Fix sink", "d", "home", "", "open", 0, 0, 1, none, none, none⟩],
         [⟨1, 1, 2, 50, 2, "555", "pending"⟩, ⟨2, 1, 3, 60, 3, "666", "pending"⟩],
         [], [], 3, 1⟩).map
        (fun s => (s.quotes.map (fun x => (x.id, x.status)),
                   s.tasks.map (fun t => (t.helperId, t.status))))
      = .ok ([(1, "accepted"), (2, "declined")], [(some 2, "accepted")]) ∧
    (Except.bind (accept_quote 1 1
        ⟨[], [⟨1, "Fix sink", "d", "home", "", "open", 0, 0, 1, none, none, none⟩],
         [⟨1, 1, 2, 50, 2, "555", "pending"⟩, ⟨2, 1, 3, 60, 3, "666", "pending"⟩],
         [], [], 3, 1⟩)
        (fun s => accept_quote 1 2 s)).map
        (fun s => (s.quotes.map (fun x => (x.id, x.status)),
                   s.tasks.map (fun t => (t.helperId, t.status))))
      = .ok ([(1, "declined"), (2, "accepted")], [(some 3, "accepted")]) := by
  refine ⟨by decide, by decide⟩

/-- Claim C3 amended: once a quote of a task has been accepted (task status
"accepted"), no new quote can be created for the task — `submit_quote`
requires an open task — and at most one quote of the task is accepted at any
moment (each accept declines all others); but `accept_quote` itself checks
only that the quote exists and the actor is the task's poster, so a later
`accept_quote` on another still-existing quote of the same task succeeds,
makes that quote the accepted one and reassigns the task's helper. -/
theorem accepted_task_blocks_new_quotes_not_reacceptance
    (db : DB) (uid quoteId : Nat) (q : Quote) (T : Task)
    (hwf : db.wf) (hqmem : q ∈ db.quotes) (hqid : q.id = quoteId)
    (hTmem : T ∈ db.tasks) (hTid : T.id = q.taskId) (hposter : T.posterId = uid)
    (hclosed : T.status = "accepted") :
    (∀ uid' charges hours mobile s,
       submit_quote uid' T.id charges hours mobile db = .ok s → False) ∧
    (∃ s, accept_quote uid quoteId db = .ok s ∧
      s.quotes.filter (fun x => x.taskId == T.id && x.status == "accepted")
        = [{ q with status := "accepted" }] ∧
      s.tasks.find? (fun t => t.id == T.id)
        = some { T with helperId := some q.helperId, charges := some q.charges,
                        hours := some q.hours, status := "accepted" }) := by
  obtain ⟨htasks_u, hquotes_u, -, -⟩ := hwf
  constructor
  · intro uid' charges hours mobile s hok
    rw [submit_quote] at hok
    by_cases hguard : (charges.isNone || hours.isNone || mobile.getD "" == "") = true
    · rw [if_pos hguard] at hok
      cases hok
    · rw [if_neg hguard] at hok
      rcases hfind : db.tasks.find? (fun t => t.id == T.id && t.status == "open") with
        _ | t'
      · rw [hfind] at hok; cases hok
      · have ht'mem := List.mem_of_find?_eq_some hfind
        have hpred := List.find?_some hfind
        simp only [Bool.and_eq_true, beq_iff_eq] at hpred
        have ht'T : t' = T := eq_of_unique_ids htasks_u ht'mem hTmem (by rw [hpred.1])
        rw [ht'T, hclosed] at hpred
        exact absurd hpred.2 (by decide)
  · have hqfind : db.quotes.find? (fun x => x.id == quoteId) = some q :=
      find?_eq_some_of_unique hqmem (by simp [hqid])
        (fun b hb hpb => by
          have hb' : b.id = quoteId := by simpa using hpb
          exact eq_of_unique_ids hquotes_u hb hqmem (by rw [hb', hqid]))
    have hTfind : db.tasks.find? (fun t => t.id == q.taskId) = some T :=
      find?_eq_some_of_unique hTmem (by simp [hTid])
        (fun b hb hpb => by
          have hb' : b.id = q.taskId := by simpa using hpb
          exact eq_of_unique_ids htasks_u hb hTmem (by rw [hb', hTid]))
    exact ⟨_, accept_quote_eq_ok hqfind hTfind hposter,
      quotes_after_accept_filter hquotes_u hqmem hqid hTid,
      @find_tasks_after_accept db q T quoteId hTmem⟩

/-- Witness for the amended C3: the state right after the first acceptance
(task accepted, helper 2; quote 1 accepted, quote 2 declined): no quote can be
submitted any more, yet accepting the declined quote 2 still succeeds and
hands the task to helper 3. -/
theorem accepted_task_blocks_new_quotes_not_reacceptance_witness :
    (∀ uid' charges hours mobile s,
       submit_quote uid' 1 charges hours mobile
         ⟨[], [⟨1, "Fix sink", "d", "home", "", "accepted", 0, 0, 1, some 2,
                some 50, some 2⟩],
          [⟨1, 1, 2, 50, 2, "555", "accepted"⟩, ⟨2, 1, 3, 60, 3, "666", "declined"⟩],
          [], [], 3, 1⟩ = .ok s → False) ∧
    (∃ s, accept_quote 1 2
         ⟨[], [⟨1, "Fix sink", "d", "home", "", "accepted", 0, 0, 1, some 2,
                some 50, some 2⟩],
          [⟨1, 1, 2, 50, 2, "555", "accepted"⟩, ⟨2, 1, 3, 60, 3, "666", "declined"⟩],
          [], [], 3, 1⟩ = .ok s ∧
      s.quotes.filter (fun x => x.taskId == 1 && x.status == "accepted")
        = [⟨2, 1, 3, 60, 3, "666", "accepted"⟩] ∧
      s.tasks.find? (fun t => t.id == 1)
        = some ⟨1, "Fix sink", "d", "home", "", "accepted", 0, 0, 1, some 3,
                some 60, some 3⟩) :=
  accepted_task_blocks_new_quotes_not_reacceptance
    ⟨[], [⟨1, "Fix sink", "d", "home", "", "accepted", 0, 0, 1, some 2,
           some 50, some 2⟩],
     [⟨1, 1, 2, 50, 2, "555", "accepted"⟩, ⟨2, 1, 3, 60, 3, "666", "declined"⟩],
     [], [], 3, 1⟩ 1 2
    ⟨2, 1, 3, 60, 3, "666", "declined"⟩
    ⟨1, "Fix sink", "d", "home", "", "accepted", 0, 0, 1, some 2, some 50, some 2⟩
    (by decide) (by decide) rfl (by decide) rfl rfl rfl

/-- Claim C6: `complete_task` fails with 404 (NotFoundError) when no task with
the given id exists; fails with 403 (AuthorizationError) when the actor is
neither the task's poster nor its helper; otherwise it sets the status to
"completed" — with no hypothesis on the task's prior status — and changes no
other task field and no other table. -/
theorem complete_task_spec (uid taskId : Nat) (db : DB) :
    ((∀ t ∈ db.tasks, t.id ≠ taskId) →
       complete_task uid taskId db = .error (404, "Task not found")) ∧
    (∀ T, db.tasks.find? (fun t => t.id == taskId) = some T →
       some uid ≠ T.helperId → uid ≠ T.posterId →
       complete_task uid taskId db
         = .error (403, "You're not authorized to complete this task")) ∧
    (∀ T, db.tasks.find? (fun t => t.id == taskId) = some T →
       (some uid = T.helperId ∨ uid = T.posterId) →
       complete_task uid taskId db
         = .ok { db with tasks := db.tasks.map (fun t =>
             if t.id == taskId then { t with status := "completed" } else t) }) := by
  refine ⟨fun hnone => ?_, fun T hT hh hp => ?_, fun T hT hmem => ?_⟩
  · have : db.tasks.find? (fun t => t.id == taskId) = none :=
      List.find?_eq_none.mpr (fun t ht => by simpa using hnone t ht)
    simp [complete_task, this]
  · simp [complete_task, hT, hh, hp]
  · rcases hmem with hh | hp
    · simp [complete_task, hT, hh]
    · simp [complete_task, hT, hp]

/-- Witness for C6: a concrete task (id 1, poster 1, helper 2, status "open")
completed by its helper. -/
theorem complete_task_spec_witness :
    (⟨[], [⟨1, "t", "d", "c", "", "open", 0, 0, 1, some 2, none, none⟩],
      [], [], [], 0, 0⟩ : DB).tasks.find? (fun t => t.id == 1)
        = some ⟨1, "t", "d", "c", "", "open", 0, 0, 1, some 2, none, none⟩ ∧
    complete_task 2 1
        ⟨[], [⟨1, "t", "d", "c", "", "open", 0, 0, 1, some 2, none, none⟩],
         [], [], [], 0, 0⟩
      = .ok ⟨[], [⟨1, "t", "d", "c", "", "completed", 0, 0, 1, some 2, none, none⟩],
             [], [], [], 0, 0⟩ := by
  refine ⟨by decide, ?_⟩
  have h := (complete_task_spec 2 1
    ⟨[], [⟨1, "t", "d", "c", "", "open", 0, 0, 1, some 2, none, none⟩],
     [], [], [], 0, 0⟩).2.2
    ⟨1, "t", "d", "c", "", "open", 0, 0, 1, some 2, none, none⟩
    (by decide) (Or.inl rfl)
  simpa using h

/-- Claim C9: `delete_task` fails with 404 (NotFoundError) when no task with
that id is owned by the actor, with 400 (InvalidStateError) when the task's
status is not "open"; on success the single committed state (the cascade is
one transaction, `app.py` line 475, rolled back wholesale on exception) has
the task's quotes deleted, its ratings deleted and the task removed, and no
`Quote` or `Rating` row referencing the task id survives. Error responses
return no new state: nothing is mutated. -/
theorem delete_task_spec (uid taskId : Nat) (db : DB) :
    ((∀ t ∈ db.tasks, ¬(t.id = taskId ∧ t.posterId = uid)) →
       delete_task uid taskId db = .error (404, "Task not found or you don't own it")) ∧
    (∀ T, db.tasks.find? (fun t => t.id == taskId && t.posterId == uid) = some T →
       T.status ≠ "open" →
       delete_task uid taskId db = .error (400, "Only open tasks can be deleted")) ∧
    (∀ T, db.tasks.find? (fun t => t.id == taskId && t.posterId == uid) = some T →
       T.status = "open" →
       delete_task uid taskId db = .ok
         { db with
           quotes := db.quotes.filter (fun q => q.taskId != taskId),
           ratings := db.ratings.filter (fun r => r.taskId != taskId),
           tasks := db.tasks.eraseP (fun t => t.id == taskId && t.posterId == uid) }) ∧
    (∀ s, delete_task uid taskId db = .ok s →
       (∀ q ∈ s.quotes, q.taskId ≠ taskId) ∧ (∀ r ∈ s.ratings, r.taskId ≠ taskId)) := by
  refine ⟨fun hnone => ?_, fun T hT hst => ?_, fun T hT hst => ?_, fun s hs => ?_⟩
  · have : db.tasks.find? (fun t => t.id == taskId && t.posterId == uid) = none :=
      List.find?_eq_none.mpr (fun t ht => by
        have := hnone t ht
        simp only [Bool.and_eq_true, beq_iff_eq]
        tauto)
    simp [delete_task, this]
  · simp [delete_task, hT, hst]
  · simp [delete_task, hT, hst]
  · rw [delete_task] at hs
    rcases hfind : db.tasks.find? (fun t => t.id == taskId && t.posterId == uid) with
      _ | T
    · rw [hfind] at hs; simp at hs
    · rw [hfind] at hs
      simp only [] at hs
      by_cases hst : T.status = "open"
      · rw [if_neg (by simp [hst])] at hs
        cases hs
        constructor
        · intro q hq
          have := (List.mem_filter.mp hq).2
          simpa using this
        · intro r hr
          have := (List.mem_filter.mp hr).2
          simpa using this
      · rw [if_pos (by simp [hst])] at hs
        simp at hs

/-- Claim C5 counterexample: `submit_quote`'s validation only checks that
charges, hours and mobile are present; a quote with charges = −1 passes it and
is persisted with negative charges, refuting "every persisted Quote has
charges ≥ 0". -/
theorem submit_quote_negative_charges_counterexample :
    (submit_quote 2 1 (some (-1)) (some 1) (some "555")
        ⟨[], [⟨1, "t", "d", "c", "", "open", 0, 0, 1, none, none, none⟩],
         [], [], [], 1, 1⟩).map (fun s => s.quotes.map Quote.charges)
      = .ok [-1] ∧ (-1 : ℚ) < 0 := by decide

/-- Claim C5 amended: `submit_quote` imposes no sign constraint — it stores
exactly the submitted charges and hours (status "pending"); consequently all
persisted quotes have charges ≥ 0 and hours ≥ 0 only under the additional
assumption that every submission is nonnegative. -/
theorem submit_quote_stores_submitted_values (uid taskId : Nat) (c h : ℚ)
    (m : String) (db s : DB)
    (hok : submit_quote uid taskId (some c) (some h) (some m) db = .ok s) :
    (⟨db.nextQuoteId, taskId, uid, c, h, m, "pending"⟩ : Quote) ∈ s.quotes ∧
    ((∀ q ∈ db.quotes, 0 ≤ q.charges ∧ 0 ≤ q.hours) → 0 ≤ c → 0 ≤ h →
      ∀ q ∈ s.quotes, 0 ≤ q.charges ∧ 0 ≤ q.hours) := by
  obtain ⟨-, hq, -⟩ := submit_quote_ok_inv hok
  constructor
  · rw [hq]
    exact List.mem_append_right _ (List.mem_singleton.mpr rfl)
  · intro hall hc hh q hqmem
    rw [hq] at hqmem
    rcases List.mem_append.mp hqmem with hold | hnew
    · exact hall q ((List.eraseP_sublist db.quotes).mem hold)
    · rw [List.mem_singleton.mp hnew]
      exact ⟨hc, hh⟩

/-- Witness for the amended C5: a concrete successful submission with
charges 5 and hours 2 onto a database whose only prior quote is nonnegative. -/
theorem submit_quote_stores_submitted_values_witness :
    (⟨1, 1, 2, 5, 2, "555", "pending"⟩ : Quote) ∈
      (⟨[], [⟨1, "t", "d", "c", "", "open", 0, 0, 1, none, none, none⟩],
        [⟨1, 1, 2, 5, 2, "555", "pending"⟩], [], [], 2, 1⟩ : DB).quotes ∧
    ((∀ q ∈ (⟨[], [⟨1, "t", "d", "c", "", "open", 0, 0, 1, none, none, none⟩],
        [⟨0, 1, 2, 7, 1, "7", "pending"⟩], [], [], 1, 1⟩ : DB).quotes,
        0 ≤ q.charges ∧ 0 ≤ q.hours) → (0:ℚ) ≤ 5 → (0:ℚ) ≤ 2 →
      ∀ q ∈ (⟨[], [⟨1, "t", "d", "c", "", "open", 0, 0, 1, none, none, none⟩],
        [⟨1, 1, 2, 5, 2, "555", "pending"⟩], [], [], 2, 1⟩ : DB).quotes,
        0 ≤ q.charges ∧ 0 ≤ q.hours) := by
  have h := submit_quote_stores_submitted_values 2 1 5 2 "555"
    ⟨[], [⟨1, "t", "d", "c", "", "open", 0, 0, 1, none, none, none⟩],
     [⟨0, 1, 2, 7, 1, "7", "pending"⟩], [], [], 1, 1⟩
    ⟨[], [⟨1, "t", "d", "c", "", "open", 0, 0, 1, none, none, none⟩],
     [⟨1, 1, 2, 5, 2, "555", "pending"⟩], [], [], 2, 1⟩
    (by decide)
  exact h

/-- Claim C2 (intended atomicity of `accept_quote`, violated by the code):
the handler commits twice — `db.session.commit()` at `app.py` line 331 and
again at line 336 after creating the accepted helper's notification. On a task
with two pending quotes, the state persisted by the first commit already has
the other quote declined (with its notification) and the task assigned, yet
differs from the final state (the assignment notification is missing): it is a
partial state that survives if the second step fails, so the operation is not
a single atomic unit. -/
theorem accept_quote_partial_commit_state :
    accept_quote_firstCommit 1 1
        ⟨[], [⟨1, "Fix sink", "d", "home", "", "open", 0, 0, 1, none, none, none⟩],
         [⟨1, 1, 2, 50, 2, "555", "pending"⟩, ⟨2, 1, 3, 60, 3, "666", "pending"⟩],
         [], [], 3, 1⟩
      = .ok ⟨[], [⟨1, "Fix sink", "d", "home", "", "accepted", 0, 0, 1, some 2,
                   some 50, some 2⟩],
             [⟨1, 1, 2, 50, 2, "555", "accepted"⟩, ⟨2, 1, 3, 60, 3, "666", "declined"⟩],
             [], [⟨3, declineMessage "Fix sink", false⟩], 3, 1⟩ ∧
    accept_quote 1 1
        ⟨[], [⟨1, "Fix sink", "d", "home", "", "open", 0, 0, 1, none, none, none⟩],
         [⟨1, 1, 2, 50, 2, "555", "pending"⟩, ⟨2, 1, 3, 60, 3, "666", "pending"⟩],
         [], [], 3, 1⟩
      = .ok ⟨[], [⟨1, "Fix sink", "d", "home", "", "accepted", 0, 0, 1, some 2,
                   some 50, some 2⟩],
             [⟨1, 1, 2, 50, 2, "555", "accepted"⟩, ⟨2, 1, 3, 60, 3, "666", "declined"⟩],
             [], [⟨3, declineMessage "Fix sink", false⟩,
                  ⟨2, assignMessage "Fix sink", false⟩], 3, 1⟩ ∧
    (⟨[], [⟨1, "Fix sink", "d", "home", "", "accepted", 0, 0, 1, some 2,
            some 50, some 2⟩],
      [⟨1, 1, 2, 50, 2, "555", "accepted"⟩, ⟨2, 1, 3, 60, 3, "666", "declined"⟩],
      [], [⟨3, declineMessage "Fix sink", false⟩], 3, 1⟩ : DB)
      ≠ ⟨[], [⟨1, "Fix sink", "d", "home", "", "open", 0, 0, 1, none, none, none⟩],
          [⟨1, 1, 2, 50, 2, "555", "pending"⟩, ⟨2, 1, 3, 60, 3, "666", "pending"⟩],
          [], [], 3, 1⟩ ∧
    (⟨[], [⟨1, "Fix sink", "d", "home", "", "accepted", 0, 0, 1, some 2,
            some 50, some 2⟩],
      [⟨1, 1, 2, 50, 2, "555", "accepted"⟩, ⟨2, 1, 3, 60, 3, "666", "declined"⟩],
      [], [⟨3, declineMessage "Fix sink", false⟩], 3, 1⟩ : DB)
      ≠ ⟨[], [⟨1, "Fix sink", "d", "home", "", "accepted", 0, 0, 1, some 2,
               some 50, some 2⟩],
          [⟨1, 1, 2, 50, 2, "555", "accepted"⟩, ⟨2, 1, 3, 60, 3, "666", "declined"⟩],
          [], [⟨3, declineMessage "Fix sink", false⟩,
               ⟨2, assignMessage "Fix sink", false⟩], 3, 1⟩ := by
  refine ⟨by decide, by decide, by decide, by decide⟩

/-- Claim C7 counterexample: the required-fields check is Python's
`not all([task_id, ratee_id, score])`, which treats a *present* score of 0 as
missing. On a completed task with valid participants and `score = 0`, every
required field is present and the first violated condition in the claim's
order is the score range, yet the code reports the missing-fields error, not
the score error. -/
theorem create_rating_truthiness_counterexample :
    create_rating 1 (some 1) (some 2) (some 0) none
        ⟨[], [⟨1, "t", "d", "c", "", "completed", 0, 0, 1, some 2, some 5, some 2⟩],
         [], [], [], 1, 1⟩
      = .error (400, "task_id, ratee_id, and score are required") ∧
    (some 1).isSome ∧ (some 2).isSome ∧ (some (0 : Int)).isSome ∧
    ¬(1 ≤ (0 : Int) ∧ (0 : Int) ≤ 5) ∧
    create_rating 1 (some 1) (some 2) (some 0) none
        ⟨[], [⟨1, "t", "d", "c", "", "completed", 0, 0, 1, some 2, some 5, some 2⟩],
         [], [], [], 1, 1⟩
      ≠ .error (400, "Score must be between 1 and 5") := by
  refine ⟨by decide, by decide, by decide, by decide, by decide, by decide⟩

/-- Claim C7 amended: with "required fields present" read as Python truthiness
(`None` *and zero* count as missing), `create_rating` checks its conditions in
exactly the claimed order — required fields, score in [1,5], task exists with
status "completed", rater is a participant, ratee is the other participant,
no pre-existing (task, rater, ratee) rating — the first violated condition
determines the reported error, failures return an error and no new state (so
no Rating row is persisted), and a repeated call with the same triple fails
with the duplicate error. -/
theorem create_rating_validation_order
    (uid : Nat) (taskId? rateeId? : Option Nat) (score? : Option Int)
    (comment? : Option String) (db : DB) :
    ((truthyNat taskId? && truthyNat rateeId? && truthyInt score?) = false →
       create_rating uid taskId? rateeId? score? comment? db
         = .error (400, "task_id, ratee_id, and score are required")) ∧
    ((truthyNat taskId? && truthyNat rateeId? && truthyInt score?) = true →
       ¬(1 ≤ score?.getD 0 ∧ score?.getD 0 ≤ 5) →
       create_rating uid taskId? rateeId? score? comment? db
         = .error (400, "Score must be between 1 and 5")) ∧
    ((truthyNat taskId? && truthyNat rateeId? && truthyInt score?) = true →
       1 ≤ score?.getD 0 → score?.getD 0 ≤ 5 →
       db.tasks.find? (fun t => t.id == taskId?.getD 0) = none →
       create_rating uid taskId? rateeId? score? comment? db
         = .error (400, "Task not found or not completed")) ∧
    (∀ T, (truthyNat taskId? && truthyNat rateeId? && truthyInt score?) = true →
       1 ≤ score?.getD 0 → score?.getD 0 ≤ 5 →
       db.tasks.find? (fun t => t.id == taskId?.getD 0) = some T →
       T.status ≠ "completed" →
       create_rating uid taskId? rateeId? score? comment? db
         = .error (400, "Task not found or not completed")) ∧
    (∀ T, (truthyNat taskId? && truthyNat rateeId? && truthyInt score?) = true →
       1 ≤ score?.getD 0 → score?.getD 0 ≤ 5 →
       db.tasks.find? (fun t => t.id == taskId?.getD 0) = some T →
       T.status = "completed" →
       ¬(uid = T.posterId ∨ some uid = T.helperId) →
       create_rating uid taskId? rateeId? score? comment? db
         = .error (403, "You were not part of this task")) ∧
    (∀ T, (truthyNat taskId? && truthyNat rateeId? && truthyInt score?) = true →
       1 ≤ score?.getD 0 → score?.getD 0 ≤ 5 →
       db.tasks.find? (fun t => t.id == taskId?.getD 0) = some T →
       T.status = "completed" →
       (uid = T.posterId ∨ some uid = T.helperId) →
       ¬((rateeId?.getD 0 = T.posterId ∨ some (rateeId?.getD 0) = T.helperId) ∧
          rateeId?.getD 0 ≠ uid) →
       create_rating uid taskId? rateeId? score? comment? db
         = .error (400, "You can only rate the other participant")) ∧
    (∀ T r, (truthyNat taskId? && truthyNat rateeId? && truthyInt score?) = true →
       1 ≤ score?.getD 0 → score?.getD 0 ≤ 5 →
       db.tasks.find? (fun t => t.id == taskId?.getD 0) = some T →
       T.status = "completed" →
       (uid = T.posterId ∨ some uid = T.helperId) →
       (rateeId?.getD 0 = T.posterId ∨ some (rateeId?.getD 0) = T.helperId) →
       rateeId?.getD 0 ≠ uid →
       db.ratings.find? (fun x => x.taskId == taskId?.getD 0 && x.raterId == uid
         && x.rateeId == rateeId?.getD 0) = some r →
       create_rating uid taskId? rateeId? score? comment? db
         = .error (400, "You already rated this user for this task")) ∧
    (∀ T, (truthyNat taskId? && truthyNat rateeId? && truthyInt score?) = true →
       1 ≤ score?.getD 0 → score?.getD 0 ≤ 5 →
       db.tasks.find? (fun t => t.id == taskId?.getD 0) = some T →
       T.status = "completed" →
       (uid = T.posterId ∨ some uid = T.helperId) →
       (rateeId?.getD 0 = T.posterId ∨ some (rateeId?.getD 0) = T.helperId) →
       rateeId?.getD 0 ≠ uid →
       db.ratings.find? (fun x => x.taskId == taskId?.getD 0 && x.raterId == uid
         && x.rateeId == rateeId?.getD 0) = none →
       create_rating uid taskId? rateeId? score? comment? db
         = .ok { db with
                 ratings := db.ratings ++
                   [⟨db.nextRatingId, taskId?.getD 0, uid, rateeId?.getD 0,
                     score?.getD 0, comment?.getD ""⟩],
                 nextRatingId := db.nextRatingId + 1 }) ∧
    (∀ s, create_rating uid taskId? rateeId? score? comment? db = .ok s →
       create_rating uid taskId? rateeId? score? comment? s
         = .error (400, "You already rated this user for this task")) := by
  refine ⟨?_, ?_, ?_, ?_, ?_, ?_, ?_, ?_, ?_⟩
  · intro h1
    rw [create_rating, if_pos (by simp [h1])]
  · intro h1 h2
    rw [create_rating, if_neg (by simp [h1]),
      if_pos (by rcases not_and_or.mp h2 with h | h <;> simp [h])]
  · intro h1 hs1 hs2 hfind
    rw [create_rating, if_neg (by simp [h1]), if_neg (by simp [hs1, hs2]), hfind]
  · intro T h1 hs1 hs2 hfind hst
    rw [create_rating, if_neg (by simp [h1]), if_neg (by simp [hs1, hs2]), hfind]
    simp only []
    rw [if_pos (by simpa using hst)]
  · intro T h1 hs1 hs2 hfind hst hpart
    rw [create_rating, if_neg (by simp [h1]), if_neg (by simp [hs1, hs2]), hfind]
    simp only []
    rw [if_neg (by simp [hst]), if_pos (by
      rw [not_or] at hpart
      simp [hpart.1, hpart.2])]
  · intro T h1 hs1 hs2 hfind hst hpart hratee
    have hc : ((rateeId?.getD 0 == T.posterId
        || some (rateeId?.getD 0) == T.helperId)
        && (rateeId?.getD 0 != uid)) = false := by
      cases hb : ((rateeId?.getD 0 == T.posterId
          || some (rateeId?.getD 0) == T.helperId)
          && (rateeId?.getD 0 != uid)) with
      | false => rfl
      | true =>
        simp only [Bool.and_eq_true, Bool.or_eq_true, beq_iff_eq, bne_iff_ne] at hb
        exact absurd hb hratee
    rw [create_rating, if_neg (by simp [h1]), if_neg (by simp [hs1, hs2]), hfind]
    simp only []
    rw [if_neg (by simp [hst]),
      if_neg (by rcases hpart with h | h <;> simp [h]),
      if_pos (by simp [hc])]
  · intro T r h1 hs1 hs2 hfind hst hpart hratee1 hratee2 hdup
    have hc : ((rateeId?.getD 0 == T.posterId
        || some (rateeId?.getD 0) == T.helperId)
        && (rateeId?.getD 0 != uid)) = true := by
      rw [Bool.and_eq_true]
      refine ⟨?_, ?_⟩
      · rcases hratee1 with h | h <;> simp [h]
      · simp [bne_iff_ne, hratee2]
    rw [create_rating, if_neg (by simp [h1]), if_neg (by simp [hs1, hs2]), hfind]
    simp only []
    rw [if_neg (by simp [hst]),
      if_neg (by rcases hpart with h | h <;> simp [h]),
      if_neg (by simp [hc]), hdup,
      if_pos (by simp)]
  · intro T h1 hs1 hs2 hfind hst hpart hratee1 hratee2 hdup
    have hc : ((rateeId?.getD 0 == T.posterId
        || some (rateeId?.getD 0) == T.helperId)
        && (rateeId?.getD 0 != uid)) = true := by
      rw [Bool.and_eq_true]
      refine ⟨?_, ?_⟩
      · rcases hratee1 with h | h <;> simp [h]
      · simp [bne_iff_ne, hratee2]
    rw [create_rating, if_neg (by simp [h1]), if_neg (by simp [hs1, hs2]), hfind]
    simp only []
    rw [if_neg (by simp [hst]),
      if_neg (by rcases hpart with h | h <;> simp [h]),
      if_neg (by simp [hc]), hdup,
      if_neg (by simp)]
  · intro s hok
    obtain ⟨T, h1, h2, hfind, hst, hpart, ⟨hratee1, hratee2⟩, -, hs⟩ :=
      create_rating_ok_inv hok
    subst hs
    have hc : ((rateeId?.getD 0 == T.posterId
        || some (rateeId?.getD 0) == T.helperId)
        && (rateeId?.getD 0 != uid)) = true := by
      rw [Bool.and_eq_true]
      refine ⟨?_, ?_⟩
      · rcases hratee1 with h | h <;> simp [h]
      · simp [bne_iff_ne, hratee2]
    rw [create_rating, if_neg (by simp [h1]), if_neg (by simp [h2.1, h2.2])]
    have hfind' : (({ db with
        ratings := db.ratings ++
          [⟨db.nextRatingId, taskId?.getD 0, uid, rateeId?.getD 0,
            score?.getD 0, comment?.getD ""⟩],
        nextRatingId := db.nextRatingId + 1 } : DB)).tasks.find?
        (fun t => t.id == taskId?.getD 0) = some T := hfind
    rw [hfind']
    simp only []
    rw [if_neg (by simp [hst]),
      if_neg (by rcases hpart with h | h <;> simp [h]),
      if_neg (by simp [hc]),
      if_pos (List.find?_isSome.mpr
        ⟨⟨db.nextRatingId, taskId?.getD 0, uid, rateeId?.getD 0,
          score?.getD 0, comment?.getD ""⟩,
         List.mem_append_right _ (by simp), by simp⟩)]

/-- Witness for the amended C7: poster 1 rates helper 2 with score 4 on the
completed task 1 — the rating is persisted; the identical second call fails
with the duplicate error. -/
theorem create_rating_validation_order_witness :
    create_rating 1 (some 1) (some 2) (some 4) (some "good")
        ⟨[], [⟨1, "t", "d", "c", "", "completed", 0, 0, 1, some 2, some 5, some 2⟩],
         [], [], [], 1, 1⟩
      = .ok ⟨[], [⟨1, "t", "d", "c", "", "completed", 0, 0, 1, some 2, some 5, some 2⟩],
             [], [⟨1, 1, 1, 2, 4, "good"⟩], [], 1, 2⟩ ∧
    create_rating 1 (some 1) (some 2) (some 4) (some "good")
        ⟨[], [⟨1, "t", "d", "c", "", "completed", 0, 0, 1, some 2, some 5, some 2⟩],
         [], [⟨1, 1, 1, 2, 4, "good"⟩], [], 1, 2⟩
      = .error (400, "You already rated this user for this task") :=
  ⟨(create_rating_validation_order 1 (some 1) (some 2) (some 4) (some "good")
      ⟨[], [⟨1, "t", "d", "c", "", "completed", 0, 0, 1, some 2, some 5, some 2⟩],
       [], [], [], 1, 1⟩).2.2.2.2.2.2.2.1
      ⟨1, "t", "d", "c", "", "completed", 0, 0, 1, some 2, some 5, some 2⟩
      (by decide) (by decide) (by decide) (by decide) rfl (Or.inl rfl)
      (Or.inr rfl) (by decide) (by decide),
   (create_rating_validation_order 1 (some 1) (some 2) (some 4) (some "good")
      ⟨[], [⟨1, "t", "d", "c", "", "completed", 0, 0, 1, some 2, some 5, some 2⟩],
       [], [], [], 1, 1⟩).2.2.2.2.2.2.2.2
      ⟨[], [⟨1, "t", "d", "c", "", "completed", 0, 0, 1, some 2, some 5, some 2⟩],
       [], [⟨1, 1, 1, 2, 4, "good"⟩], [], 1, 2⟩ (by decide)⟩

/-- Claim C10: nothing excludes a task's poster from quoting their own task.
On any open task, `submit_quote` by the poster with valid inputs succeeds and
creates a pending quote whose helper is the poster; `accept_quote` by the
poster on that quote then succeeds, leaving the task with
helper_id = poster_id. -/
theorem poster_can_self_quote_and_accept
    (db : DB) (T : Task) (c h : ℚ) (m : String)
    (hwf : db.wf) (hTmem : T ∈ db.tasks) (hopen : T.status = "open") (hm : m ≠ "") :
    ∃ s1 s2,
      submit_quote T.posterId T.id (some c) (some h) (some m) db = .ok s1 ∧
      (⟨db.nextQuoteId, T.id, T.posterId, c, h, m, "pending"⟩ : Quote) ∈ s1.quotes ∧
      accept_quote T.posterId db.nextQuoteId s1 = .ok s2 ∧
      s2.tasks.find? (fun t => t.id == T.id)
        = some { T with helperId := some T.posterId, charges := some c,
                        hours := some h, status := "accepted" } := by
  obtain ⟨htasks_u, hquotes_u, hfresh, -⟩ := hwf
  have hTfindOpen : db.tasks.find? (fun t => t.id == T.id && t.status == "open")
      = some T :=
    find?_eq_some_of_unique hTmem (by simp [hopen])
      (fun b hb hpb => by
        have hb' : b.id = T.id := by
          simp only [Bool.and_eq_true, beq_iff_eq] at hpb
          exact hpb.1
        exact eq_of_unique_ids htasks_u hb hTmem hb')
  have hTfindId : db.tasks.find? (fun t => t.id == T.id) = some T :=
    find?_eq_some_of_unique hTmem (by simp)
      (fun b hb hpb => by
        have hb' : b.id = T.id := by simpa using hpb
        exact eq_of_unique_ids htasks_u hb hTmem hb')
  have hqfind : (db.quotes.eraseP
        (fun q => q.taskId == T.id && q.helperId == T.posterId)
      ++ [(⟨db.nextQuoteId, T.id, T.posterId, c, h, m, "pending"⟩ : Quote)]).find?
      (fun x => x.id == db.nextQuoteId)
      = some ⟨db.nextQuoteId, T.id, T.posterId, c, h, m, "pending"⟩ := by
    rw [find?_append_of_left_none (fun a ha => by
      have hmem := (List.eraseP_sublist db.quotes).subset ha
      have hlt := hfresh a hmem
      simp [Nat.ne_of_lt hlt])]
    simp [List.find?]
  have hok1 : submit_quote T.posterId T.id (some c) (some h) (some m) db
      = .ok { db with
          quotes := db.quotes.eraseP
              (fun q => q.taskId == T.id && q.helperId == T.posterId)
            ++ [⟨db.nextQuoteId, T.id, T.posterId, c, h, m, "pending"⟩],
          nextQuoteId := db.nextQuoteId + 1 } := by
    rw [submit_quote, if_neg (by simp [hm]), hTfindOpen]
    rfl
  exact ⟨_, _, hok1, List.mem_append_right _ (by simp),
    @accept_quote_eq_ok { db with
        quotes := db.quotes.eraseP
            (fun q => q.taskId == T.id && q.helperId == T.posterId)
          ++ [⟨db.nextQuoteId, T.id, T.posterId, c, h, m, "pending"⟩],
        nextQuoteId := db.nextQuoteId + 1 } T.posterId db.nextQuoteId
      ⟨db.nextQuoteId, T.id, T.posterId, c, h, m, "pending"⟩ T hqfind hTfindId rfl,
    @find_tasks_after_accept { db with
        quotes := db.quotes.eraseP
            (fun q => q.taskId == T.id && q.helperId == T.posterId)
          ++ [⟨db.nextQuoteId, T.id, T.posterId, c, h, m, "pending"⟩],
        nextQuoteId := db.nextQuoteId + 1 }
      ⟨db.nextQuoteId, T.id, T.posterId, c, h, m, "pending"⟩ T db.nextQuoteId hTmem⟩

/-- `atan2 0 1 = 0`: the haversine of two identical points. -/
theorem atan2_zero_one : atan2 0 1 = 0 := by
  rw [atan2, if_pos one_pos]
  simp [Real.arctan_zero]

/-- The haversine distance from a point to itself is zero. -/
theorem haversine_self (lat lon : ℝ) : haversine_distance lat lon lat lon = 0 := by
  rw [haversine_distance]
  simp only [sub_self, zero_div, Real.sin_zero, ne_eq, OfNat.ofNat_ne_zero,
    not_false_eq_true, zero_pow, mul_zero, add_zero, Real.sqrt_zero, sub_zero,
    Real.sqrt_one]
  rw [atan2_zero_one]
  ring

/-- Zero rounds to zero. -/
theorem round2_zero : round2 0 = 0 := by
  simp [round2]

/-- An entry is produced by `get_map_tasks`' scan exactly for the tasks whose
haversine distance is within the radius, and carries the rounded distance. -/
theorem mem_mapTaskScan {ulat ulon radius : ℝ} {ts : List Task} {e : MapEntry} :
    e ∈ mapTaskScan ulat ulon radius ts ↔
      ∃ t ∈ ts,
        haversine_distance ulat ulon (t.latitude : ℝ) (t.longitude : ℝ) ≤ radius ∧
        e = mapEntryOf t
          (haversine_distance ulat ulon (t.latitude : ℝ) (t.longitude : ℝ)) := by
  induction ts with
  | nil => simp [mapTaskScan]
  | cons t rest ih =>
    simp only [mapTaskScan]
    by_cases hd : haversine_distance ulat ulon (t.latitude : ℝ) (t.longitude : ℝ) ≤ radius
    · rw [if_pos hd]
      simp only [List.cons_append, List.nil_append, List.mem_cons, ih]
      constructor
      · rintro (rfl | ⟨t', ht', hd', he⟩)
        · exact ⟨t, Or.inl rfl, hd, rfl⟩
        · exact ⟨t', Or.inr ht', hd', he⟩
      · rintro ⟨t', rfl | ht'', hd', he⟩
        · exact Or.inl he
        · exact Or.inr ⟨t', ht'', hd', he⟩
    · rw [if_neg hd]
      simp only [List.nil_append, List.mem_cons, ih]
      constructor
      · rintro ⟨t', ht', hd', he⟩
        exact ⟨t', Or.inr ht', hd', he⟩
      · rintro ⟨t', rfl | ht'', hd', he⟩
        · exact absurd hd' hd
        · exact ⟨t', ht'', hd', he⟩

/-- Claim C8: `get_map_tasks` fails with 400 (ValidationError) when the user's
stored latitude or longitude is unset; fails with 400 when the radius lies
outside [0.1, 50]; otherwise it returns exactly the open tasks whose haversine
great-circle distance (R = 6371.0) from the user's stored location is at most
the radius, each entry carrying the distance rounded to two decimals; in
particular an open task at the user's exact coordinates has distance_km = 0
and is included for every valid radius. -/
theorem get_map_tasks_spec (uid : Nat) (radius : ℝ) (db : DB) (u : User)
    (hu : db.users.find? (fun x => x.id == uid) = some u) :
    ((u.latitude = none ∨ u.longitude = none) →
       get_map_tasks uid radius db = .error (400, "Your location is not set")) ∧
    (∀ ulat ulon, u.latitude = some ulat → u.longitude = some ulon →
       (radius < 0.1 ∨ radius > 50) →
       get_map_tasks uid radius db
         = .error (400, "Radius must be between 0.1 and 50 km")) ∧
    (∀ ulat ulon, u.latitude = some ulat → u.longitude = some ulon →
       0.1 ≤ radius → radius ≤ 50 →
       ∃ entries, get_map_tasks uid radius db = .ok entries ∧
         (∀ e, e ∈ entries ↔ ∃ t ∈ db.tasks, t.status = "open" ∧
             haversine_distance (ulat : ℝ) (ulon : ℝ)
               (t.latitude : ℝ) (t.longitude : ℝ) ≤ radius ∧
             e = mapEntryOf t (haversine_distance (ulat : ℝ) (ulon : ℝ)
               (t.latitude : ℝ) (t.longitude : ℝ))) ∧
         (∀ t ∈ db.tasks, t.status = "open" → t.latitude = ulat → t.longitude = ulon →
            mapEntryOf t 0 ∈ entries ∧ (mapEntryOf t 0).distance_km = 0)) := by
  refine ⟨?_, ?_, ?_⟩
  · intro hunset
    rcases hunset with h | h
    · rw [get_map_tasks, hu]
      simp only []
      rw [h]
    · rw [get_map_tasks, hu]
      simp only []
      rw [h]
      rcases hlat : u.latitude with _ | la <;> rfl
  · intro ulat ulon hlat hlon hrad
    rw [get_map_tasks, hu]
    simp only []
    rw [hlat, hlon]
    simp only []
    rw [if_pos hrad]
  · intro ulat ulon hlat hlon hr1 hr2
    rw [get_map_tasks, hu]
    simp only []
    rw [hlat, hlon]
    simp only []
    rw [if_neg (by
      rintro (hlt | hgt)
      · exact absurd hr1 (not_le.mpr hlt)
      · exact absurd hr2 (not_le.mpr hgt))]
    refine ⟨_, rfl, ?_, ?_⟩
    · intro e
      rw [mem_mapTaskScan]
      constructor
      · rintro ⟨t, ht, hd, he⟩
        have hf := List.mem_filter.mp ht
        exact ⟨t, hf.1, by simpa using hf.2, hd, he⟩
      · rintro ⟨t, ht, hst, hd, he⟩
        exact ⟨t, List.mem_filter.mpr ⟨ht, by simp [hst]⟩, hd, he⟩
    · intro t ht hst hlatq hlonq
      have hdist : haversine_distance (ulat : ℝ) (ulon : ℝ)
          (t.latitude : ℝ) (t.longitude : ℝ) = 0 := by
        rw [hlatq, hlonq]
        exact haversine_self _ _
      constructor
      · rw [mem_mapTaskScan]
        refine ⟨t, List.mem_filter.mpr ⟨ht, by simp [hst]⟩, ?_, ?_⟩
        · rw [hdist]; linarith
        · rw [hdist]
      · show round2 0 = 0
        exact round2_zero

/-- Witness for C8: user 1 stored at (0, 0), one open task at (0, 0),
radius 1 km — the task is returned with distance_km = 0. -/
theorem get_map_tasks_spec_witness :
    ∃ entries, get_map_tasks 1 1
        ⟨[⟨1, some 0, some 0⟩],
         [⟨1, "t", "d", "c", "", "open", 0, 0, 2, none, none, none⟩],
         [], [], [], 1, 1⟩ = .ok entries ∧
      mapEntryOf ⟨1, "t", "d", "c", "", "open", 0, 0, 2, none, none, none⟩ 0
        ∈ entries ∧
      (mapEntryOf ⟨1, "t", "d", "c", "", "open", 0, 0, 2, none, none, none⟩ 0).distance_km
        = 0 := by
  obtain ⟨entries, hok, -, hzero⟩ :=
    (get_map_tasks_spec 1 1
      ⟨[⟨1, some 0, some 0⟩],
       [⟨1, "t", "d", "c", "", "open", 0, 0, 2, none, none, none⟩],
       [], [], [], 1, 1⟩ ⟨1, some 0, some 0⟩ (by decide)).2.2 0 0 rfl rfl
      (by norm_num) (by norm_num)
  obtain ⟨hmem, hdk⟩ := hzero ⟨1, "t", "d", "c", "", "open", 0, 0, 2, none, none, none⟩
    (by decide) rfl rfl rfl
  exact ⟨entries, hok, hmem, hdk⟩

/-- Witness for C10: poster 1 quotes their own open task 1 (charges 9,
hours 4) and then accepts the quote, ending with helper_id = poster_id = 1. -/
theorem poster_can_self_quote_and_accept_witness :
    ∃ s1 s2,
      submit_quote 1 1 (some 9) (some 4) (some "111")
        ⟨[], [⟨1, "t", "d", "c", "", "open", 0, 0, 1, none, none, none⟩],
         [], [], [], 5, 1⟩ = .ok s1 ∧
      (⟨5, 1, 1, 9, 4, "111", "pending"⟩ : Quote) ∈ s1.quotes ∧
      accept_quote 1 5 s1 = .ok s2 ∧
      s2.tasks.find? (fun t => t.id == 1)
        = some ⟨1, "t", "d", "c", "", "accepted", 0, 0, 1, some 1, some 9, some 4⟩ :=
  poster_can_self_quote_and_accept
    ⟨[], [⟨1, "t", "d", "c", "", "open", 0, 0, 1, none, none, none⟩],
     [], [], [], 5, 1⟩
    ⟨1, "t", "d", "c", "", "open", 0, 0, 1, none, none, none⟩ 9 4 "111"
    (by decide) (by decide) rfl (by decide)

/-- Witness for C9: deleting an open task (id 1, poster 1) carrying one quote
and one rating leaves no quote and no rating referencing task 1. -/
theorem delete_task_spec_witness :
    delete_task 1 1
        ⟨[], [⟨1, "t", "d", "c", "", "open", 0, 0, 1, none, none, none⟩],
         [⟨1, 1, 2, 5, 2, "555", "pending"⟩], [⟨1, 1, 2, 3, 4, ""⟩], [], 2, 2⟩
      = .ok ⟨[], [], [], [], [], 2, 2⟩ := by
  have h := (delete_task_spec 1 1
    ⟨[], [⟨1, "t", "d", "c", "", "open", 0, 0, 1, none, none, none⟩],
     [⟨1, 1, 2, 5, 2, "555", "pending"⟩], [⟨1, 1, 2, 3, 4, ""⟩], [], 2, 2⟩).2.2.1
    ⟨1, "t", "d", "c", "", "open", 0, 0, 1, none, none, none⟩ (by decide) (by decide)
  simpa using h

end Wave
